import Mathlib

/-!
Verification development for the course-recommendation backend.

The definitions below are a shallow embedding of the recommendation
subsystem of the repository:

* `RecommendationService` (source file with `getChatRecommendations`,
  `searchCoursesBasic`, `canMakeApiRequest`, `trackApiRequest`,
  `useGroqFallback`, `generateAIRecommendations`,
  `generateBasicRecommendations`, `calculateRelevanceScore`,
  `getApiUsageStats`), and
* `src/services/gptService.js` (`getOpenAIRecommendations` /
  `getGroqRecommendations` response parsing and
  `getFallbackRecommendations`).

External collaborators (the Mongo catalog, the HTTP clients, `Math.log`,
`Date.now`) are modelled as explicit parameters.  JavaScript string
operations are modelled on `List Char`; numeric recommendation scores are
modelled as rationals.
-/

set_option maxHeartbeats 1000000

namespace OLP

/-! ### JavaScript string primitives -/

/-- Whitespace characters relevant to `trim`, `\s` and `split(/\s+/)`
(ASCII subset; all strings in the development are ASCII). -/
def jsWsChar (c : Char) : Bool :=
  c = ' ' || c = '\t' || c = '\n' || c = '\r' || c = '\x0b' || c = '\x0c'

/-- `needle.isPrefixOf hay` on raw character lists. -/
def prefixOfB : List Char → List Char → Bool
  | [], _ => true
  | _ :: _, [] => false
  | a :: as, b :: bs => a = b && prefixOfB as bs

/-- JavaScript `hay.includes(needle)` (substring containment). -/
def hasSub : List Char → List Char → Bool
  | [], needle => needle.isEmpty
  | a :: t, needle => prefixOfB needle (a :: t) || hasSub t needle

/-- Lower-casing a character list (`String.prototype.toLowerCase`,
ASCII range). -/
def lowerL (l : List Char) : List Char := l.map Char.toLower

/-- JavaScript `hay.includes(needle)` on `String`s. -/
def strIncludes (hay needle : String) : Bool := hasSub hay.toList needle.toList

/-- Case-insensitive substring test: the semantics of
`new RegExp(pattern, 'i')` applied to a metacharacter-free pattern. -/
def ciIncludes (hay needle : String) : Bool :=
  hasSub (lowerL hay.toList) (lowerL needle.toList)

/-- JavaScript `s.split(',')`. -/
def splitComma : List Char → List (List Char)
  | [] => [[]]
  | c :: t =>
    if c = ',' then [] :: splitComma t
    else
      match splitComma t with
      | [] => [[c]]
      | h :: r => (c :: h) :: r

/-- JavaScript `s.trim()`. -/
def trimL (l : List Char) : List Char :=
  ((l.dropWhile jsWsChar).reverse.dropWhile jsWsChar).reverse

/-- First maximal digit run in a string: the `match(/\d+/)` step of the
position parser.  `none` when the string holds no digit. -/
def firstDigits : List Char → Option (List Char)
  | [] => none
  | c :: t => if c.isDigit then some (c :: t.takeWhile Char.isDigit) else firstDigits t

/-- Decimal value of a digit run (`parseInt` applied to a digit string). -/
def digitsVal (l : List Char) : Nat :=
  l.foldl (fun a c => a * 10 + (c.toNat - '0'.toNat)) 0

/-- JavaScript `parseInt(s)` (radix 10) on an already-trimmed string:
optional sign followed by a maximal digit run; `none` models `NaN`. -/
def parseIntJs (l : List Char) : Option Int :=
  match l with
  | '+' :: t => (firstDigitsHere t).map (fun ds => (digitsVal ds : Int))
  | '-' :: t => (firstDigitsHere t).map (fun ds => -(digitsVal ds : Int))
  | t => (firstDigitsHere t).map (fun ds => (digitsVal ds : Int))
where
  /-- Digit run starting at the head of the list (parseInt does not skip
  non-digit characters). -/
  firstDigitsHere : List Char → Option (List Char)
    | [] => none
    | c :: t => if c.isDigit then some (c :: t.takeWhile Char.isDigit) else none

/-- Word characters of the `\w` regex class. -/
def isWordB (c : Char) : Bool := c.isAlphanum || c = '_'

theorem dropWhile_length_le (p : α → Bool) (l : List α) :
    (l.dropWhile p).length ≤ l.length := by
  induction l with
  | nil => simp [List.dropWhile]
  | cons a t ih =>
    by_cases h : p a
    · simp [List.dropWhile, h]; omega
    · simp [List.dropWhile, h]

/-- Splitting into whitespace-separated words, dropping empty pieces.
Models `split(/\s+/)` followed by the length filter that discards the
empty string a leading separator would produce. -/
def wordsOf (l : List Char) : List (List Char) :=
  match l with
  | [] => []
  | c :: t =>
    if jsWsChar c then wordsOf t
    else (c :: t.takeWhile (fun d => !jsWsChar d)) :: wordsOf (t.dropWhile (fun d => !jsWsChar d))
termination_by l.length
decreasing_by
  · simp only [List.length_cons]; omega
  · have := dropWhile_length_le (fun d => !jsWsChar d) t
    simp only [List.length_cons]; omega

/-- Non-overlapping left-to-right occurrence count of `needle` in `hay`:
`text.match(new RegExp(term, 'gi')).length` for a literal term (the
terms this is applied to are lower-case word characters only). -/
def countOccAux (needle : List Char) : List Char → Nat
  | [] => 0
  | a :: t =>
    if prefixOfB needle (a :: t) then 1 + countOccAux needle (t.drop (needle.length - 1))
    else countOccAux needle t
termination_by hay => hay.length
decreasing_by
  · have := List.length_drop (needle.length - 1) t
    simp only [List.length_cons]; omega
  · simp only [List.length_cons]; omega

/-- Occurrence count; the empty term never arises (search terms have at
least three characters), so it is mapped to zero. -/
def countOcc (hay needle : List Char) : Nat :=
  if needle.isEmpty then 0 else countOccAux needle hay

/-- Characters that are metacharacters of the ECMAScript regular
expression grammar.  A pattern free of them compiles and matches as a
literal substring. -/
def regexMetaChar (c : Char) : Bool :=
  c = '\\' || c = '^' || c = '$' || c = '.' || c = '|' || c = '?' ||
  c = '*' || c = '+' || c = '(' || c = ')' || c = '[' || c = ']' ||
  c = '\x7b' || c = '\x7d'

/-- Whether `new RegExp(q, 'i')` succeeds, modelled on the
metacharacter-free fragment: such patterns always compile and denote
literal (case-insensitive) substring search.  Patterns containing
metacharacters are modelled as failing to compile; this matches
JavaScript for the unbalanced-group patterns (such as `"("`) used in the
concrete counterexamples, where `new RegExp` raises `SyntaxError`. -/
def jsRegexOk (q : String) : Bool := q.toList.all (fun c => !regexMetaChar c)

/-- Pair every element with its index, starting at `i`
(JavaScript `Array.prototype.map((x, index) => ...)`). -/
def idxFrom (i : Nat) : List α → List (Nat × α)
  | [] => []
  | a :: l => (i, a) :: idxFrom (i + 1) l

/-- Stable insertion used by the sorts: `lt a b` means `a` must be
strictly before `b`; an element is inserted before the first position
whose element is not strictly before it. -/
def insertByB (lt : α → α → Bool) (x : α) : List α → List α
  | [] => [x]
  | y :: ys => if lt y x then y :: insertByB lt x ys else x :: y :: ys

/-- Stable sort (insertion sort).  Models both the server-side Mongo
`sort` and the (stable) JavaScript `Array.prototype.sort`. -/
def sortByB (lt : α → α → Bool) (l : List α) : List α :=
  l.foldr (insertByB lt) []

/-- Mongoose `query.limit(n)`: a limit of `0` is equivalent to no limit
(MongoDB cursor semantics); a positive limit truncates. -/
def jsLimit (n : Nat) (l : List α) : List α :=
  if n = 0 then l else l.take n

/-! ### JSON values and a model of `JSON.parse` (ECMA-404 grammar)

The provider-response parser of `gptService.js` feeds model output to
`JSON.parse`.  The claims only ever inspect whether parsing succeeds and
what the fall-through branches produce, so string contents are kept as
code-unit lists and number tokens as their lexemes. -/

inductive Json where
  | null : Json
  | jbool : Bool → Json
  | num : List Char → Json
  | str : List Nat → Json
  | arr : List Json → Json
  | obj : List (List Nat × Json) → Json

/-- JSON insignificant whitespace (exactly these four characters). -/
def jsonWs (c : Char) : Bool := c = ' ' || c = '\t' || c = '\n' || c = '\r'

def skipWs (l : List Char) : List Char := l.dropWhile jsonWs

/-- Value of one hexadecimal digit, by ASCII code: digits are 48-57,
lower-case letters 97-102 (value = code - 87), upper-case 65-70
(value = code - 55). -/
def hexVal (c : Char) : Option Nat :=
  let code := c.toNat
  if 48 ≤ code && code ≤ 57 then some (code - 48)
  else if 97 ≤ code && code ≤ 102 then some (code - 87)
  else if 65 ≤ code && code ≤ 70 then some (code - 55)
  else none

/-- JSON string body (opening quote already consumed): content code
units and the remainder after the closing quote. -/
def parseStrBody : List Char → Option (List Nat × List Char)
  | [] => none
  | '"' :: t => some ([], t)
  | '\\' :: 'u' :: h1 :: h2 :: h3 :: h4 :: t =>
    match hexVal h1, hexVal h2, hexVal h3, hexVal h4 with
    | some a, some b, some c, some d =>
      (parseStrBody t).map (fun p => ((((a * 16 + b) * 16 + c) * 16 + d) :: p.1, p.2))
    | _, _, _, _ => none
  | '\\' :: e :: t =>
    match (if e = '"' then some 34 else if e = '\\' then some 92 else
           if e = '/' then some 47 else if e = 'b' then some 8 else
           if e = 'f' then some 12 else if e = 'n' then some 10 else
           if e = 'r' then some 13 else if e = 't' then some 9 else none) with
    | some u => (parseStrBody t).map (fun p => (u :: p.1, p.2))
    | none => none
  | c :: t =>
    if c.toNat < 32 then none
    else (parseStrBody t).map (fun p => (c.toNat :: p.1, p.2))

/-- JSON number token: `-? int frac? exp?` with the int part `0` or a
nonzero-led digit run.  Returns the lexeme and the remainder. -/
def parseNumTok (l : List Char) : Option (List Char × List Char) :=
  let (sgn, l1) :=
    match l with
    | '-' :: t => (['-'], t)
    | t => (([] : List Char), t)
  match l1 with
  | [] => none
  | c :: t =>
    if !c.isDigit then none
    else if c = '0' && (t.takeWhile Char.isDigit) ≠ [] then none
    else
      let intPart := c :: t.takeWhile Char.isDigit
      let rest1 := t.dropWhile Char.isDigit
      let (fracPart, rest2) :=
        match rest1 with
        | '.' :: u =>
          if (u.takeWhile Char.isDigit) = [] then (([] : List Char), '.' :: u)
          else ('.' :: u.takeWhile Char.isDigit, u.dropWhile Char.isDigit)
        | u => (([] : List Char), u)
      if fracPart = [] && (match rest1 with | '.' :: _ => true | _ => false) then none
      else
        let (expPart, rest3) :=
          match rest2 with
          | 'e' :: u => expTail ['e'] u
          | 'E' :: u => expTail ['E'] u
          | u => (some ([] : List Char), u)
        match expPart with
        | none => none
        | some ep => some (sgn ++ intPart ++ fracPart ++ ep, rest3)
where
  /-- Exponent tail: optional sign then a nonempty digit run. -/
  expTail (pre : List Char) (u : List Char) : Option (List Char) × List Char :=
    let (s, u1) :=
      match u with
      | '+' :: v => (['+'], v)
      | '-' :: v => (['-'], v)
      | v => (([] : List Char), v)
    if (u1.takeWhile Char.isDigit) = [] then (none, u)
    else (some (pre ++ s ++ u1.takeWhile Char.isDigit), u1.dropWhile Char.isDigit)

mutual

/-- One JSON value (leading whitespace allowed); fuel bounds the total
number of recursive steps — callers supply fuel well above the input
length, and every step past the first consumes input, so fuel never runs
out on inputs the real `JSON.parse` accepts. -/
def parseVal : Nat → List Char → Option (Json × List Char)
  | 0, _ => none
  | Nat.succ fu, l =>
    match skipWs l with
    | 'n' :: 'u' :: 'l' :: 'l' :: t => some (Json.null, t)
    | 't' :: 'r' :: 'u' :: 'e' :: t => some (Json.jbool true, t)
    | 'f' :: 'a' :: 'l' :: 's' :: 'e' :: t => some (Json.jbool false, t)
    | '"' :: t => (parseStrBody t).map (fun p => (Json.str p.1, p.2))
    | '[' :: t =>
      (match skipWs t with
       | ']' :: u => some (Json.arr [], u)
       | _ => (parseItems fu t).map (fun p => (Json.arr p.1, p.2)))
    | '\x7b' :: t =>
      (match skipWs t with
       | '\x7d' :: u => some (Json.obj [], u)
       | _ => (parseFields fu t).map (fun p => (Json.obj p.1, p.2)))
    | l' => (parseNumTok l').map (fun p => (Json.num p.1, p.2))

/-- Comma-separated array items up to the closing bracket. -/
def parseItems : Nat → List Char → Option (List Json × List Char)
  | 0, _ => none
  | Nat.succ fu, l =>
    match parseVal fu l with
    | none => none
    | some (v, rest) =>
      match skipWs rest with
      | ',' :: u => (parseItems fu u).map (fun p => (v :: p.1, p.2))
      | ']' :: u => some ([v], u)
      | _ => none

/-- Comma-separated `"key" : value` members up to the closing brace. -/
def parseFields : Nat → List Char → Option (List (List Nat × Json) × List Char)
  | 0, _ => none
  | Nat.succ fu, l =>
    match skipWs l with
    | '"' :: t =>
      match parseStrBody t with
      | none => none
      | some (k, rest) =>
        match skipWs rest with
        | ':' :: u =>
          match parseVal fu u with
          | none => none
          | some (v, rest2) =>
            match skipWs rest2 with
            | ',' :: w => (parseFields fu w).map (fun p => ((k, v) :: p.1, p.2))
            | '\x7d' :: w => some ([(k, v)], w)
            | _ => none
        | _ => none
    | _ => none

end

/-- `JSON.parse` on a character list: one value spanning the whole input
(surrounding whitespace allowed). -/
def jsonParseL (l : List Char) : Option Json :=
  match parseVal (4 * l.length + 4) l with
  | some (v, rest) => if (skipWs rest).isEmpty then some v else none
  | none => none

/-- `JSON.parse` on a string. -/
def jsonParse (s : String) : Option Json := jsonParseL s.toList

/-! ### The embedded-array extraction regex

`gptService.js` falls back to
`gptResponse.match(/\[\s*\{[\s\S]*?\}\s*\]/)`: the leftmost substring
that starts with `[`, optional whitespace and `{`, and ends at the first
`}` that is followed by optional whitespace and `]`. -/

/-- Scan for the first `}` that is followed by whitespace and `]`
(the lazy `[\s\S]*?\}\s*\]` tail); returns the consumed segment
including that closing `]`. -/
def findArrClose : List Char → Option (List Char)
  | [] => none
  | c :: t =>
    if c = '\x7d' then
      match (skipWs t) with
      | ']' :: _ => some (c :: (t.takeWhile jsonWs ++ [']']))
      | _ => (findArrClose t).map (fun seg => c :: seg)
    else (findArrClose t).map (fun seg => c :: seg)

/-- Attempt to match the array regex anchored at the head of the list. -/
def tryArrAt : List Char → Option (List Char)
  | '[' :: rest =>
    let wsp := rest.takeWhile jsonWs
    match rest.dropWhile jsonWs with
    | '\x7b' :: body =>
      (findArrClose body).map (fun seg => '[' :: (wsp ++ '\x7b' :: seg))
    | _ => none
  | _ => none

/-- Leftmost match of the embedded-array regex in the whole text. -/
def extractArrL : List Char → Option (List Char)
  | [] => none
  | c :: t =>
    match tryArrAt (c :: t) with
    | some m => some m
    | none => extractArrL t

/-- `text.match(/\[\s*\{[\s\S]*?\}\s*\]/)`, first match as a string. -/
def extractJsonArray (s : String) : Option (List Char) := extractArrL s.toList

/-! ### Course catalog data (external collaborator, read-only) -/

/-- A catalog course as the recommendation code reads it: Mongo ids and
the `rating.average` / `enrollmentCount` / `status` fields.  Ratings are
modelled as rationals. -/
structure Course where
  id : String
  title : String
  description : String
  category : String
  difficulty : String
  tags : List String
  ratingAvg : Rat
  enrollmentCount : Nat
  status : String
deriving DecidableEq, Inhabited

/-! ### `gptService.js`: provider-response parsing and keyword fallback -/

/-- Outcome of `getOpenAIRecommendations` / `getGroqRecommendations`
after the HTTP round-trip produced `content` (both functions share this
parsing logic verbatim, differing only in the provider tag). -/
structure ProviderParse where
  success : Bool
  recommendations : Json
  textResponse : Option String
  provider : String

/-- The response-parsing steps of `getOpenAIRecommendations` /
`getGroqRecommendations`: strict `JSON.parse` of the whole text, else
`JSON.parse` of the first embedded `[ { ... } ]` match, else a result
with `success: true` and an empty `recommendations` array carrying the
raw text. -/
def parseProviderContent (provider : String) (content : String) : ProviderParse :=
  match jsonParse content with
  | some v => ⟨true, v, none, provider⟩
  | none =>
    match extractJsonArray content with
    | some sub =>
      match jsonParseL sub with
      | some v => ⟨true, v, some content, provider⟩
      | none => ⟨true, Json.arr [], some content, provider⟩
    | none => ⟨true, Json.arr [], some content, provider⟩

/-- One keyword-fallback recommendation record of
`getFallbackRecommendations`. -/
structure FallbackRec where
  courseId : String
  title : String
  reason : String
  priority : String
deriving DecidableEq

/-- The hardcoded career-phrase table of `getFallbackRecommendations`,
in object-literal insertion order (the order `Object.entries` yields). -/
def careerKeywords : List (String × List String) :=
  [("software engineer", ["programming", "javascript", "python", "web development"]),
   ("web developer", ["html", "css", "javascript", "react", "node"]),
   ("data scientist", ["python", "statistics", "machine learning", "data analysis"]),
   ("mobile developer", ["react native", "flutter", "ios", "android"]),
   ("designer", ["ui", "ux", "design", "photoshop", "figma"])]

/-- The course text searched for skills: title, description and category
joined with spaces and lower-cased. -/
def courseSkillText (c : Course) : String :=
  String.mk (lowerL (c.title ++ " " ++ c.description ++ " " ++ c.category).toList)

/-- Recommendations contributed by one career row: every course whose
text contains one of the career skills. -/
def careerRecs (career : String) (skills : List String) (courses : List Course) :
    List FallbackRec :=
  courses.filterMap (fun c =>
    if skills.any (fun sk => strIncludes (courseSkillText c) sk) then
      some ⟨c.id, c.title, "Recommended for " ++ career ++ " career path", "medium"⟩
    else none)

/-- The `for ... of Object.entries(keywords)` loop with its `break`:
only the first career phrase contained in the prompt contributes. -/
def fallbackLoop (promptLower : String) (courses : List Course) :
    List (String × List String) → List FallbackRec
  | [] => []
  | (career, skills) :: rest =>
    if strIncludes promptLower career then careerRecs career skills courses
    else fallbackLoop promptLower courses rest

/-- `getFallbackRecommendations(userPrompt, availableCourses)`. -/
def getFallbackRecommendations (userPrompt : String) (availableCourses : List Course) :
    List FallbackRec :=
  fallbackLoop (String.mk (lowerL userPrompt.toList)) availableCourses careerKeywords

/-! ### `RecommendationService`: usage tracking -/

/-- The process-wide mutable usage state of the service instance. -/
structure UsageState where
  apiRequestCount : Nat
  requestsInWindow : List Nat
  lastServiceUsed : Option String
deriving DecidableEq

/-- External environment of one orchestration call: configured API keys,
the outcome the provider network calls would deliver, and `Math.log`
(an opaque numeric collaborator — no claim inspects its values). -/
structure Env where
  openaiApiKey : Option String
  groqApiKey : Option String
  /-- Raw `choices[0].message.content` of a successful Groq round-trip;
  `none` models any transport failure (timeout, non-2xx, bad shape). -/
  groqResult : Option String
  /-- Same for the OpenAI round-trip of `generateAIRecommendations`. -/
  openaiResult : Option String
  jsLog : Nat → Rat

/-- Number of window timestamps inside the trailing 60 s. -/
def windowCount (now : Nat) (s : UsageState) : Nat :=
  (s.requestsInWindow.filter (fun t => decide (now - t < 60000))).length

/-- `canMakeApiRequest()`: total ceiling check, then lazy pruning of the
window list (a mutation of `this.requestsInWindow`), then the per-minute
ceiling check.  Returns the boolean and the instance state afterwards. -/
def canMakeApiRequest (now : Nat) (s : UsageState) : Bool × UsageState :=
  if 250 ≤ s.apiRequestCount then (false, s)
  else
    let w := s.requestsInWindow.filter (fun t => decide (now - t < 60000))
    let s1 := { s with requestsInWindow := w }
    if 10 ≤ w.length then (false, s1) else (true, s1)

/-- `trackApiRequest()`. -/
def trackApiRequest (now : Nat) (s : UsageState) : UsageState :=
  { s with apiRequestCount := s.apiRequestCount + 1,
           requestsInWindow := s.requestsInWindow ++ [now] }

/-- Snapshot shape of `getApiUsageStats()`. -/
structure ApiStats where
  totalRequests : Nat
  maxRequests : Nat
  lastServiceUsed : Option String
  apiKeyValid : Bool
  remainingRequests : Int
  requestsInLastMinute : Nat
deriving DecidableEq

/-- `getApiUsageStats()`: a read-only snapshot. -/
def getApiUsageStats (env : Env) (now : Nat) (s : UsageState) : ApiStats :=
  { totalRequests := s.apiRequestCount
    maxRequests := 250
    lastServiceUsed := s.lastServiceUsed
    apiKeyValid :=
      match env.openaiApiKey with
      | some k => k.startsWith "sk-" && 30 < k.length
      | none => false
    remainingRequests := (250 : Int) - s.apiRequestCount
    requestsInLastMinute := windowCount now s }

/-- `useGroqFallback`: no network call when the key is missing;
otherwise one network call whose success delivers the trimmed content
and records `lastServiceUsed = 'groq'`.  The third component counts
provider network calls dispatched. -/
def useGroqFallback (env : Env) (s : UsageState) :
    Option String × UsageState × Nat :=
  match env.groqApiKey with
  | none => (none, s, 0)
  | some _ =>
    match env.groqResult with
    | some content =>
      (some (String.mk (trimL content.toList)), { s with lastServiceUsed := some "groq" }, 1)
    | none => (none, s, 1)

/-! ### `getChatRecommendations` and its search fallback -/

/-- One output record: the spread course document plus the
recommendation metadata the service attaches.  `relevanceScore` is only
attached on the search-fallback path. -/
structure RecRecord where
  course : Course
  recommendationScore : Rat
  recommendationReason : String
  recommendationService : String
  relevanceScore : Option Nat
deriving DecidableEq

/-- The object `getChatRecommendations` / `searchCoursesBasic` resolve
with. -/
structure RecResult where
  query : String
  courses : List RecRecord
  aiGenerated : Bool
  service : Option String
  fallbackReason : Option String
  apiUsage : ApiStats
deriving DecidableEq

/-- Outcome of one `getChatRecommendations` invocation: the settled
promise (`Except.error` models a rejection), the instance state
afterwards, and how many provider network calls were dispatched. -/
structure ChatOut where
  res : Except Unit RecResult
  st : UsageState
  netCalls : Nat

/-- The published catalog excerpt `getChatRecommendations` loads:
`Course.find({ status: 'published' }).limit(50)` in catalog order. -/
def chatAvail (catalog : List Course) : List Course :=
  jsLimit 50 (catalog.filter (fun c => c.status = "published"))

/-- Position parsing of the chat path: split the content on commas,
take the first digit run of each trimmed token (`-1` when there is
none), keep zero-based indices inside `[0, bound)`, truncate to the
requested limit.  (The map producing `-1` sentinels followed by the
range filter is fused into one `filterMap`.) -/
def parsePositions (content : String) (bound : Nat) (limit : Nat) : List Nat :=
  (((splitComma content.toList).filterMap (fun tok =>
      match firstDigits (trimL tok) with
      | some ds =>
        let v : Int := (digitsVal ds : Int) - 1
        if 0 ≤ v && v < (bound : Int) then some v.toNat else none
      | none => none))).take limit

/-- Search terms of `searchCoursesBasic`: lower-case the query, strip
characters that are neither word characters nor whitespace, split on
whitespace, keep tokens longer than two characters. -/
def searchTerms (q : String) : List (List Char) :=
  (wordsOf ((lowerL q.toList).filter (fun c => isWordB c || jsWsChar c))).filter
    (fun w => 2 < w.length)

/-- `calculateRelevanceScore(course, searchTerms)`: occurrences of each
term in the lower-cased concatenation of title, description, tags,
category and difficulty. -/
def calculateRelevanceScore (c : Course) (terms : List (List Char)) : Nat :=
  if terms.isEmpty then 0
  else
    let text := lowerL (String.toList (String.intercalate " "
      ([c.title, c.description] ++ c.tags ++ [c.category, c.difficulty])))
    terms.foldl (fun acc term => acc + countOcc text term) 0

/-- The `$or` filter of `searchCoursesBasic`: the whole query, as a
case-insensitive pattern, matched against title, description, any tag,
or category. -/
def queryMatches (q : String) (c : Course) : Bool :=
  ciIncludes c.title q || ciIncludes c.description q ||
    c.tags.any (fun t => ciIncludes t q) || ciIncludes c.category q

/-- Mongo sort key of the fallback search: `rating.average`
descending, then `enrollmentCount` descending.  `courseBefore a b` means
`a` sorts strictly before `b`. -/
def courseBefore (a b : Course) : Bool :=
  decide (b.ratingAvg < a.ratingAvg) ||
    (decide (a.ratingAvg = b.ratingAvg) && decide (b.enrollmentCount < a.enrollmentCount))

/-- The course list the fallback search returns: published courses
matching the query, sorted by rating then enrollment, limited. -/
def searchFound (q : String) (n : Nat) (catalog : List Course) : List Course :=
  jsLimit n (sortByB courseBefore
    (catalog.filter (fun c => c.status = "published" && queryMatches q c)))

/-- The successful result body of `searchCoursesBasic` (reached when
`new RegExp(query, 'i')` compiled): filter published courses matching
the query, sort by rating then enrollment, apply the Mongo limit, and
attach scores `(limit - index) / limit` plus the relevance annotation.
With `limit = 0` the JavaScript score would be `NaN`; the rational model
yields `0` there — no claim inspects scores at `limit = 0`. -/
def searchBody (q : String) (n : Nat) (catalog : List Course) (now : Nat)
    (s : UsageState) (env : Env) : RecResult :=
  let found := searchFound q n catalog
  let terms := searchTerms q
  let s1 := { s with lastServiceUsed := some "db-search" }
  { query := q
    courses := (idxFrom 0 found).map (fun p =>
      { course := p.2
        recommendationScore := ((n : Rat) - (p.1 : Rat)) / (n : Rat)
        recommendationReason := "Found based on search for: \"" ++ q ++ "\""
        recommendationService := "db-search"
        relevanceScore := some (calculateRelevanceScore p.2 terms) })
    aiGenerated := false
    service := some "db-search"
    fallbackReason := some "AI services unavailable. Using search-based recommendations instead."
    apiUsage := getApiUsageStats env now s1 }

/-- `searchCoursesBasic(query, limit)`: the regex construction
`new RegExp(query, 'i')` happens first and throws on an invalid pattern
(the `catch` logs and rethrows, leaving the instance state untouched);
otherwise the search completes and records `lastServiceUsed`. -/
def searchCoursesBasic (q : String) (n : Nat) (catalog : List Course) (now : Nat)
    (s : UsageState) (env : Env) : Except Unit RecResult × UsageState :=
  if jsRegexOk q then
    (Except.ok (searchBody q n catalog now s env),
     { s with lastServiceUsed := some "db-search" })
  else (Except.error (), s)

/-- Fallback exit of `getChatRecommendations`: the fallback result is
returned as the resolution.  When `searchCoursesBasic` throws, the outer
`catch` of `getChatRecommendations` invokes it once more with identical
arguments; the second, identical failure escapes the `catch` block, so
the invocation rejects. -/
def chatFallback (q : String) (n : Nat) (catalog : List Course) (now : Nat)
    (s : UsageState) (env : Env) (nc : Nat) : ChatOut :=
  match searchCoursesBasic q n catalog now s env with
  | (Except.ok r, s2) => ⟨Except.ok r, s2, nc⟩
  | (Except.error e, s2) => ⟨Except.error e, s2, nc⟩

/-- AI-path records of the chat pipeline: course at each parsed excerpt
position, score `(L - rank) / L` for `L` resolved hints, the query-based
reason and the service tag. -/
def aiRecs (q : String) (avail : List Course) (svc : Option String) (idxs : List Nat) :
    List RecRecord :=
  (idxFrom 0 idxs).map (fun p =>
    { course := (avail.get? p.2).getD default
      recommendationScore := ((idxs.length : Rat) - (p.1 : Rat)) / (idxs.length : Rat)
      recommendationReason := "Recommended based on your query: \"" ++ q ++ "\""
      recommendationService := svc.getD "unknown"
      relevanceScore := none })

/-- `getChatRecommendations(query, userId, limit)`.  The user lookup
only enriches the prompt text, which lives inside the provider oracle,
so it does not appear here.  The chat path skips OpenAI entirely, calls
Groq without consulting `canMakeApiRequest` and without
`trackApiRequest`, and falls back to `searchCoursesBasic` when Groq is
unavailable, fails, or yields no in-range position. -/
def getChatRecommendations (env : Env) (now : Nat) (s : UsageState) (q : String)
    (limit : Nat) (catalog : List Course) : ChatOut :=
  let avail := chatAvail catalog
  match useGroqFallback env s with
  | (none, s1, nc) => chatFallback q limit catalog now s1 env nc
  | (some content, s1, nc) =>
    match parsePositions content (min 20 avail.length) limit with
    | [] => chatFallback q limit catalog now s1 env nc
    | idx :: rest =>
      ⟨Except.ok
        { query := q
          courses := aiRecs q avail s1.lastServiceUsed (idx :: rest)
          aiGenerated := true
          service := s1.lastServiceUsed
          fallbackReason := none
          apiUsage := getApiUsageStats env now s1 },
        s1, nc⟩

/-! ### `generateAIRecommendations` and its basic fallback -/

/-- A record of the personalized path (`generateAIRecommendations` /
`generateBasicRecommendations`); the basic fallback attaches no
reason. -/
structure GenRec where
  course : Course
  recommendationScore : Rat
  recommendationReason : Option String
deriving DecidableEq

/-- User preference profile consumed by the basic fallback. -/
structure UserProfile where
  prefCategories : List String
  prefDifficulties : List String
  prefTags : List String

/-- `generateBasicRecommendations`: preference/rating/popularity
scoring, stable sort by score descending, truncation.  `Math.log` is the
environment collaborator `jsLog`. -/
def generateBasicRecommendations (env : Env) (profile : UserProfile)
    (availableCourses : List Course) (limit : Nat) : List GenRec :=
  let scored := availableCourses.map (fun c =>
    let score : Rat :=
      (if profile.prefCategories.contains c.category then 3 else 0) +
      (if profile.prefDifficulties.contains c.difficulty then 2 else 0) +
      ((c.tags.filter (fun t => profile.prefTags.contains t)).length : Rat) +
      c.ratingAvg * (1 / 2) +
      env.jsLog (c.enrollmentCount + 1) * (3 / 10)
    ({ course := c, recommendationScore := score, recommendationReason := none } : GenRec))
  (sortByB (fun a b => decide (b.recommendationScore < a.recommendationScore)) scored).take limit

/-- Outcome of `generateAIRecommendations`. -/
structure GenOut where
  recs : List GenRec
  st : UsageState
  netCalls : Nat

/-- Position parsing of the personalized path: plain
`parseInt(num.trim()) - 1` (no digit-run extraction), range filter,
truncation. -/
def parsePositionsBasic (content : String) (bound : Nat) (limit : Nat) : List Nat :=
  (((splitComma content.toList).filterMap (fun tok =>
      match parseIntJs (trimL tok) with
      | some v0 =>
        let v : Int := v0 - 1
        if 0 ≤ v && v < (bound : Int) then some v.toNat else none
      | none => none))).take limit

/-- `generateAIRecommendations(userProfile, availableCourses, limit)`:
configuration gate, `canMakeApiRequest` gate (which prunes the window),
`trackApiRequest` immediately before the OpenAI call, then response
parsing; every failure path degrades to the basic fallback. -/
def generateAIRecommendations (env : Env) (now : Nat) (s : UsageState)
    (profile : UserProfile) (availableCourses : List Course) (limit : Nat) : GenOut :=
  match env.openaiApiKey with
  | none => ⟨generateBasicRecommendations env profile availableCourses limit, s, 0⟩
  | some _ =>
    match canMakeApiRequest now s with
    | (false, s1) => ⟨generateBasicRecommendations env profile availableCourses limit, s1, 0⟩
    | (true, s1) =>
      let limited := availableCourses.take 20
      let s2 := trackApiRequest now s1
      match env.openaiResult with
      | none => ⟨generateBasicRecommendations env profile availableCourses limit, s2, 1⟩
      | some content =>
        match parsePositionsBasic (String.mk (trimL content.toList)) limited.length limit with
        | [] => ⟨generateBasicRecommendations env profile availableCourses limit, s2, 1⟩
        | idx :: rest =>
          ⟨(idxFrom 0 (idx :: rest)).map (fun p =>
              { course := (limited.get? p.2).getD default
                recommendationScore :=
                  (((idx :: rest).length : Rat) - (p.1 : Rat)) / ((idx :: rest).length : Rat)
                recommendationReason := some "AI-powered recommendation based on your profile" }),
            s2, 1⟩

/-! ### Iterated chat invocations (for the frame property) -/

/-- Arguments of one chat invocation. -/
structure ChatInp where
  env : Env
  now : Nat
  q : String
  limit : Nat
  catalog : List Course

/-- State after a sequence of chat invocations. -/
def chatIter : List ChatInp → UsageState → UsageState
  | [], s => s
  | i :: rest, s =>
    chatIter rest (getChatRecommendations i.env i.now s i.q i.limit i.catalog).st

/-! ### Small result projections used by the claim statements -/

/-- Whether the invocation resolved (did not reject). -/
def resOk (e : Except Unit RecResult) : Bool :=
  match e with
  | Except.ok _ => true
  | Except.error _ => false

/-- Course list of a resolution; empty for a rejection. -/
def resCourses (e : Except Unit RecResult) : List RecRecord :=
  match e with
  | Except.ok r => r.courses
  | Except.error _ => []

/-- `aiGenerated` flag of a resolution. -/
def resAiGenerated (e : Except Unit RecResult) : Bool :=
  match e with
  | Except.ok r => r.aiGenerated
  | Except.error _ => false

/-- Property of the resolved value; vacuous for a rejection. -/
def exceptProp (e : Except Unit RecResult) (P : RecResult → Prop) : Prop :=
  match e with
  | Except.ok r => P r
  | Except.error _ => True

/-- Scores of a record list in order. -/
def scoresOf (l : List RecRecord) : List Rat := l.map (fun r => r.recommendationScore)

/-- Non-increasing adjacent scores. -/
def nonIncr (l : List Rat) : Prop := List.Chain' (fun a b => b ≤ a) l

/-! ### Helper lemmas -/

theorem idxFrom_length (k : Nat) (l : List α) : (idxFrom k l).length = l.length := by
  induction l generalizing k with
  | nil => rfl
  | cons a t ih => simp [idxFrom, ih]

theorem idxFrom_get (k : Nat) (l : List α) (i : Nat) (h : i < (idxFrom k l).length)
    (h' : i < l.length) : (idxFrom k l).get ⟨i, h⟩ = (k + i, l.get ⟨i, h'⟩) := by
  induction l generalizing k i with
  | nil => simp at h'
  | cons a t ih =>
    cases i with
    | zero => simp [idxFrom]
    | succ j =>
      have hj : j < (idxFrom (k + 1) t).length := by
        simpa [idxFrom] using h
      have hj' : j < t.length := by simpa using h'
      have := ih (k + 1) j hj hj'
      simp only [idxFrom, List.get_cons_succ, this]
      congr 1
      omega

theorem idxFrom_mem {p : Nat × α} {k : Nat} {l : List α}
    (h : p ∈ idxFrom k l) : p.2 ∈ l := by
  induction l generalizing k with
  | nil => simp [idxFrom] at h
  | cons a t ih =>
    simp only [idxFrom, List.mem_cons] at h
    rcases h with h | h
    · subst h; simp
    · exact List.mem_cons_of_mem _ (ih h)

theorem mem_insertByB {lt : α → α → Bool} {x y : α} {l : List α}
    (h : y ∈ insertByB lt x l) : y = x ∨ y ∈ l := by
  induction l with
  | nil => simpa [insertByB] using h
  | cons a t ih =>
    simp only [insertByB] at h
    cases hc : lt a x with
    | true =>
      rw [hc] at h
      simp only [if_true, List.mem_cons] at h
      rcases h with h | h
      · exact Or.inr (by simp [h])
      · rcases ih h with h | h
        · exact Or.inl h
        · exact Or.inr (List.mem_cons_of_mem _ h)
    | false =>
      rw [hc] at h
      simp only [Bool.false_eq_true, if_false, List.mem_cons] at h
      rcases h with h | h | h
      · exact Or.inl h
      · exact Or.inr (by simp [h])
      · exact Or.inr (List.mem_cons_of_mem _ h)

theorem mem_sortByB {lt : α → α → Bool} {y : α} {l : List α}
    (h : y ∈ sortByB lt l) : y ∈ l := by
  induction l with
  | nil => simp [sortByB] at h
  | cons a t ih =>
    simp only [sortByB, List.foldr_cons] at h
    rcases mem_insertByB h with h | h
    · simp [h]
    · exact List.mem_cons_of_mem _ (ih h)

/-- Sortedness of the stable insertion sort, stated on adjacent pairs:
the later element is never strictly before the earlier one. -/
theorem sorted_insertByB {lt : α → α → Bool}
    (asym : ∀ a b, lt a b = true → lt b a = false)
    (x : α) {l : List α} (hl : List.Chain' (fun a b => lt b a = false) l) :
    List.Chain' (fun a b => lt b a = false) (insertByB lt x l) := by
  induction l with
  | nil => simp [insertByB]
  | cons a t ih =>
    simp only [insertByB]
    cases hc : lt a x with
    | true =>
      simp only [if_true]
      refine List.chain'_cons'.mpr ⟨?_, ih hl.tail⟩
      intro y hy
      -- `y` is the head of `insertByB lt x t`
      cases t with
      | nil =>
        simp only [insertByB, List.head?_cons, Option.mem_def, Option.some.injEq] at hy
        exact hy ▸ asym a x hc
      | cons c v =>
        have hca : lt c a = false := (List.chain'_cons.mp hl).1
        simp only [insertByB] at hy
        cases hcx : lt c x with
        | true =>
          rw [hcx] at hy
          simp only [if_true, List.head?_cons, Option.mem_def, Option.some.injEq] at hy
          exact hy ▸ hca
        | false =>
          rw [hcx] at hy
          simp only [Bool.false_eq_true, if_false, List.head?_cons, Option.mem_def,
            Option.some.injEq] at hy
          exact hy ▸ asym a x hc
    | false =>
      simp only [Bool.false_eq_true, if_false]
      exact List.chain'_cons.mpr ⟨hc, hl⟩

theorem sorted_sortByB {lt : α → α → Bool}
    (asym : ∀ a b, lt a b = true → lt b a = false)
    (l : List α) :
    List.Chain' (fun a b => lt b a = false) (sortByB lt l) := by
  induction l with
  | nil => simp [sortByB]
  | cons a t ih =>
    simpa [sortByB] using sorted_insertByB asym a (by simpa [sortByB] using ih)

/-- A list whose `i`-th element is `g i` is non-increasing when `g`
is. -/
theorem chain'_of_get (g : Nat → Rat) (anti : ∀ i, g (i + 1) ≤ g i) (l : List Rat)
    (hget : ∀ i (h : i < l.length), l.get ⟨i, h⟩ = g i) :
    List.Chain' (fun a b => b ≤ a) l := by
  rw [List.chain'_iff_get]
  intro i h
  have h1 : i < l.length := by omega
  have h2 : i + 1 < l.length := by omega
  rw [hget i h1, hget (i + 1) h2]
  exact anti i

/-- The rank-ladder scores `(L - i) / L` are non-increasing (for
`L = 0` every value is `0` in the rational model). -/
theorem ladder_anti (L : Nat) (i : Nat) :
    ((L : Rat) - (i + 1 : Nat)) / (L : Rat) ≤ ((L : Rat) - (i : Nat)) / (L : Rat) := by
  rcases Nat.eq_zero_or_pos L with hL | hL
  · subst hL; norm_num
  · have hLq : (0 : Rat) < (L : Rat) := by exact_mod_cast hL
    have hnum : ((L : Rat) - (i + 1 : Nat)) ≤ ((L : Rat) - (i : Nat)) := by
      push_cast; linarith
    exact (div_le_div_iff_of_pos_right hLq).mpr hnum

/-- Strict version of the ladder inequality, available once at least one
hint resolved. -/
theorem ladder_strict_anti (L : Nat) (hL : 0 < L) (i : Nat) :
    ((L : Rat) - (i + 1 : Nat)) / (L : Rat) < ((L : Rat) - (i : Nat)) / (L : Rat) := by
  have hLq : (0 : Rat) < (L : Rat) := by exact_mod_cast hL
  have hnum : ((L : Rat) - (i + 1 : Nat)) < ((L : Rat) - (i : Nat)) := by
    push_cast; linarith
  exact (div_lt_div_iff_of_pos_right hLq).mpr hnum

/-- Mapping over an indexed list: lengths. -/
theorem length_map_idxFrom (f : Nat × α → β) (k : Nat) (l : List α) :
    ((idxFrom k l).map f).length = l.length := by
  simp [idxFrom_length]

/-- Mapping over an indexed list: elements. -/
theorem get_map_idxFrom (f : Nat × α → β) (k : Nat) (l : List α) (i : Nat)
    (h : i < ((idxFrom k l).map f).length) (h' : i < l.length) :
    ((idxFrom k l).map f).get ⟨i, h⟩ = f (k + i, l.get ⟨i, h'⟩) := by
  have hi : i < (idxFrom k l).length := by simpa [idxFrom_length] using h'
  have h2 := idxFrom_get k l i hi h'
  rw [List.get_eq_getElem] at h2
  rw [List.get_eq_getElem, List.getElem_map, h2]

theorem mem_map_idxFrom {f : Nat × α → β} {k : Nat} {l : List α} {y : β}
    (h : y ∈ (idxFrom k l).map f) : ∃ p, p.2 ∈ l ∧ y = f p := by
  rcases List.mem_map.mp h with ⟨p, hp, rfl⟩
  exact ⟨p, idxFrom_mem hp, rfl⟩

/-- Characterization of the sort key. -/
theorem courseBefore_iff (a b : Course) :
    courseBefore a b = true ↔
      (b.ratingAvg < a.ratingAvg ∨
        (a.ratingAvg = b.ratingAvg ∧ b.enrollmentCount < a.enrollmentCount)) := by
  simp [courseBefore]

/-- `courseBefore` is asymmetric. -/
theorem courseBefore_asym (a b : Course) :
    courseBefore a b = true → courseBefore b a = false := by
  intro h
  rw [courseBefore_iff] at h
  rw [← Bool.not_eq_true, courseBefore_iff]
  push_neg
  rcases h with h | ⟨h1, h2⟩
  · exact ⟨by linarith, fun he => absurd h (by rw [he]; exact lt_irrefl _)⟩
  · exact ⟨by linarith, fun _ => by omega⟩

/-- Length of the fallback result list. -/
theorem searchBody_courses_length (q : String) (n : Nat) (catalog : List Course)
    (now : Nat) (s : UsageState) (env : Env) :
    (searchBody q n catalog now s env).courses.length = (searchFound q n catalog).length := by
  simp [searchBody, idxFrom_length]

/-- Elements of the fallback result list. -/
theorem searchBody_courses_get (q : String) (n : Nat) (catalog : List Course)
    (now : Nat) (s : UsageState) (env : Env) (i : Nat)
    (h : i < (searchBody q n catalog now s env).courses.length)
    (h' : i < (searchFound q n catalog).length) :
    (searchBody q n catalog now s env).courses.get ⟨i, h⟩ =
      { course := (searchFound q n catalog).get ⟨i, h'⟩
        recommendationScore := ((n : Rat) - (i : Rat)) / (n : Rat)
        recommendationReason := "Found based on search for: \"" ++ q ++ "\""
        recommendationService := "db-search"
        relevanceScore := some (calculateRelevanceScore ((searchFound q n catalog).get ⟨i, h'⟩)
          (searchTerms q)) } := by
  simp only [searchBody]
  rw [get_map_idxFrom _ 0 (searchFound q n catalog) i _ h']
  simp

/-- Length of the AI-path result list. -/
theorem aiRecs_length (q : String) (avail : List Course) (svc : Option String)
    (idxs : List Nat) : (aiRecs q avail svc idxs).length = idxs.length := by
  simp [aiRecs, idxFrom_length]

/-- Scores of the AI-path result list. -/
theorem aiRecs_score_get (q : String) (avail : List Course) (svc : Option String)
    (idxs : List Nat) (i : Nat) (h : i < (aiRecs q avail svc idxs).length)
    (h' : i < idxs.length) :
    ((aiRecs q avail svc idxs).get ⟨i, h⟩).recommendationScore =
      ((idxs.length : Rat) - (i : Rat)) / (idxs.length : Rat) := by
  simp only [aiRecs]
  rw [get_map_idxFrom _ 0 idxs i _ h']
  simp

/-- The chat fallback exit, explicitly: resolution with the search body
when the query compiles as a regex, rejection otherwise. -/
theorem chatFallback_eq (q : String) (n : Nat) (catalog : List Course) (now : Nat)
    (s : UsageState) (env : Env) (nc : Nat) :
    chatFallback q n catalog now s env nc =
      if jsRegexOk q then
        ⟨Except.ok (searchBody q n catalog now s env),
          { s with lastServiceUsed := some "db-search" }, nc⟩
      else ⟨Except.error (), s, nc⟩ := by
  unfold chatFallback searchCoursesBasic
  by_cases h : jsRegexOk q <;> simp [h]

theorem scoresOf_length (l : List RecRecord) : (scoresOf l).length = l.length := by
  simp [scoresOf]

theorem scoresOf_get (l : List RecRecord) (i : Nat) (h : i < (scoresOf l).length)
    (h' : i < l.length) :
    (scoresOf l).get ⟨i, h⟩ = (l.get ⟨i, h'⟩).recommendationScore := by
  simp [scoresOf]

/-- Scores on the fallback path are the ladder `(limit - i) / limit`. -/
theorem searchBody_score_get (q : String) (n : Nat) (catalog : List Course)
    (now : Nat) (s : UsageState) (env : Env) (i : Nat)
    (h : i < (searchBody q n catalog now s env).courses.length)
    (h' : i < (searchFound q n catalog).length) :
    ((searchBody q n catalog now s env).courses.get ⟨i, h⟩).recommendationScore =
      ((n : Rat) - (i : Nat)) / (n : Rat) := by
  rw [searchBody_courses_get q n catalog now s env i h h']

/-- Fallback scores are non-increasing. -/
theorem nonIncr_searchBody (q : String) (n : Nat) (catalog : List Course)
    (now : Nat) (s : UsageState) (env : Env) :
    nonIncr (scoresOf (searchBody q n catalog now s env).courses) := by
  apply chain'_of_get (fun i => ((n : Rat) - (i : Nat)) / (n : Rat)) (ladder_anti n)
  intro i h
  have h1 : i < (searchBody q n catalog now s env).courses.length := by
    simpa [scoresOf_length] using h
  have h2 : i < (searchFound q n catalog).length := by
    simpa [searchBody_courses_length] using h1
  rw [scoresOf_get _ i h h1, searchBody_score_get q n catalog now s env i h1 h2]

/-- AI-path scores are non-increasing. -/
theorem nonIncr_aiRecs (q : String) (avail : List Course) (svc : Option String)
    (idxs : List Nat) : nonIncr (scoresOf (aiRecs q avail svc idxs)) := by
  apply chain'_of_get (fun i => ((idxs.length : Rat) - (i : Nat)) / (idxs.length : Rat))
    (ladder_anti idxs.length)
  intro i h
  have h1 : i < (aiRecs q avail svc idxs).length := by
    simpa [scoresOf_length] using h
  have h2 : i < idxs.length := by simpa [aiRecs_length] using h1
  rw [scoresOf_get _ i h h1, aiRecs_score_get q avail svc idxs i h1 h2]

/-- Length bound for parsed positions. -/
theorem parsePositions_length_le (content : String) (bound n : Nat) :
    (parsePositions content bound n).length ≤ n := by
  simp [parsePositions]

/-- Every parsed position is inside the shown excerpt. -/
theorem parsePositions_mem_lt (content : String) (bound n : Nat) :
    ∀ i ∈ parsePositions content bound n, i < bound := by
  intro i hi
  have hi' : i ∈ (splitComma content.toList).filterMap (fun tok =>
      match firstDigits (trimL tok) with
      | some ds =>
        let v : Int := (digitsVal ds : Int) - 1
        if 0 ≤ v && v < (bound : Int) then some v.toNat else none
      | none => none) := List.mem_of_mem_take hi
  rcases List.mem_filterMap.mp hi' with ⟨tok, _, htok⟩
  rcases hd : firstDigits (trimL tok) with _ | ds
  · rw [hd] at htok; simp at htok
  · rw [hd] at htok
    simp only [] at htok
    by_cases hc : (0 ≤ ((digitsVal ds : Int) - 1) && ((digitsVal ds : Int) - 1) < (bound : Int))
    · rw [if_pos hc] at htok
      simp only [Option.some.injEq] at htok
      simp only [Bool.and_eq_true, decide_eq_true_eq] at hc
      subst htok
      omega
    · rw [if_neg hc] at htok; simp at htok

/-- Length bound for the fallback course list under a positive limit. -/
theorem searchFound_length_le (q : String) (n : Nat) (catalog : List Course)
    (hn : 0 < n) : (searchFound q n catalog).length ≤ n := by
  have : n ≠ 0 := by omega
  simp [searchFound, jsLimit, this]

/-- State fields a chat invocation can never touch: the pipeline calls
neither `trackApiRequest` nor `canMakeApiRequest`, so only
`lastServiceUsed` changes. -/
theorem chat_state_counters (env : Env) (now : Nat) (s : UsageState) (q : String)
    (n : Nat) (catalog : List Course) :
    (getChatRecommendations env now s q n catalog).st.apiRequestCount = s.apiRequestCount ∧
    (getChatRecommendations env now s q n catalog).st.requestsInWindow = s.requestsInWindow := by
  unfold getChatRecommendations
  cases hk : env.groqApiKey with
  | none =>
    simp only [useGroqFallback, hk, chatFallback_eq]
    by_cases hq : jsRegexOk q <;> simp [hq]
  | some k =>
    cases hr : env.groqResult with
    | none =>
      simp only [useGroqFallback, hk, hr, chatFallback_eq]
      by_cases hq : jsRegexOk q <;> simp [hq]
    | some content =>
      simp only [useGroqFallback, hk, hr]
      cases hp : parsePositions (String.mk (trimL content.toList))
          (min 20 (chatAvail catalog).length) n with
      | nil =>
        simp only [hp, chatFallback_eq]
        by_cases hq : jsRegexOk q <;> simp [hq]
      | cons idx rest => simp [hp]

/-- Chain transport through indexing. -/
theorem chain'_idxFrom {R : α → α → Prop} {l : List α} (h : List.Chain' R l) (k : Nat) :
    List.Chain' (fun p q : Nat × α => R p.2 q.2) (idxFrom k l) := by
  induction l generalizing k with
  | nil => simp [idxFrom]
  | cons a t ih =>
    simp only [idxFrom]
    refine List.chain'_cons'.mpr ⟨?_, ih h.tail k.succ⟩
    intro y hy
    cases t with
    | nil => simp [idxFrom] at hy
    | cons c v =>
      simp only [idxFrom, List.head?_cons, Option.mem_def, Option.some.injEq] at hy
      exact hy ▸ (List.chain'_cons.mp h).1

/-- Chain preservation through the Mongo limit. -/
theorem chain'_jsLimit {R : α → α → Prop} {l : List α} (h : List.Chain' R l) (n : Nat) :
    List.Chain' R (jsLimit n l) := by
  unfold jsLimit
  by_cases hn : n = 0
  · simpa [hn] using h
  · simpa [hn] using h.take n

/-! ### Concrete fixtures for the claim instances -/

def courseA : Course :=
  ⟨"ca", "Course A", "intro a", "Cat", "beginner", ["t1"], 4, 10, "published"⟩

def courseB : Course :=
  ⟨"cb", "Course B", "intro b", "Cat", "beginner", ["t2"], 3, 20, "published"⟩

def courseC : Course :=
  ⟨"cc", "Course C", "intro c", "Cat", "advanced", [], 5, 5, "published"⟩

/-- A three-course published catalog (the shown excerpt has 3 items). -/
def cat3 : List Course := [courseA, courseB, courseC]

def dataVizCourse : Course :=
  ⟨"dataviz", "Data Visualization with Python", "Learn charts", "Data Science",
    "beginner", ["Python"], 4, 100, "published"⟩

def unrelatedCourse : Course :=
  ⟨"unrel", "Cooking Basics", "Learn to cook", "Lifestyle",
    "beginner", ["food"], 5, 500, "published"⟩

/-- Catalog with one Python course and one unrelated course. -/
def cat2 : List Course := [dataVizCourse, unrelatedCourse]

def stateZero : UsageState := ⟨0, [], none⟩

/-- State at the total-request ceiling: the gate is closed. -/
def stateAtCap : UsageState := ⟨250, [], none⟩

/-- State holding one expired window timestamp. -/
def staleState : UsageState := ⟨0, [0], none⟩

/-- No provider configured. -/
def envNone : Env := ⟨none, none, none, none, fun _ => 0⟩

/-- Groq key configured; `r` is the network outcome. -/
def envGroq (r : Option String) : Env := ⟨none, some "gsk", r, none, fun _ => 0⟩

/-- OpenAI key configured, no Groq. -/
def envOpenAI : Env := ⟨some "sk-test", none, none, none, fun _ => 0⟩

def profileEmpty : UserProfile := ⟨[], [], []⟩

/-- Whether a JSON value is the empty array. -/
def isEmptyArr : Json → Bool
  | Json.arr [] => true
  | _ => false

/-! ### Claim C8 -/

/-- C8 counterexample: `canMakeApiRequest` is not side-effect-free — on
a state holding one expired timestamp it returns `true` but prunes the
window list, changing the usage state. -/
theorem canMakeApiRequest_prunes_window :
    (canMakeApiRequest 60000 staleState).1 = true ∧
    (canMakeApiRequest 60000 staleState).2 ≠ staleState ∧
    (canMakeApiRequest 60000 staleState).2.requestsInWindow = [] := by
  refine ⟨rfl, by decide, rfl⟩

/-- C8 amended: the boolean is `false` exactly when the total counter
reached 250 or at least 10 timestamps lie in the trailing 60 s window;
the call never changes the counter or the service tag, and the window
list is only pruned — in-window timestamps are preserved and the stored
list shrinks to a sublist. -/
theorem canMakeApiRequest_gate_spec (now : Nat) (s : UsageState) :
    ((canMakeApiRequest now s).1 = false ↔
      (250 ≤ s.apiRequestCount ∨ 10 ≤ windowCount now s)) ∧
    (canMakeApiRequest now s).2.apiRequestCount = s.apiRequestCount ∧
    (canMakeApiRequest now s).2.lastServiceUsed = s.lastServiceUsed ∧
    windowCount now ((canMakeApiRequest now s).2) = windowCount now s ∧
    List.Sublist ((canMakeApiRequest now s).2.requestsInWindow) s.requestsInWindow := by
  unfold canMakeApiRequest
  by_cases hc : 250 ≤ s.apiRequestCount
  · simp [hc, List.Sublist.refl]
  · by_cases hw : 10 ≤ (s.requestsInWindow.filter (fun t => decide (now - t < 60000))).length
    · refine ⟨?_, ?_, ?_, ?_, ?_⟩
      · simp [hc, hw, windowCount]
      · simp [hc, hw]
      · simp [hc, hw]
      · simp only [hc, if_false, hw, if_true, windowCount, List.filter_filter]
        simp
      · simp only [hc, if_false, hw, if_true]
        exact List.filter_sublist _
    · refine ⟨?_, ?_, ?_, ?_, ?_⟩
      · simp [hc, hw, windowCount]
      · simp [hc, hw]
      · simp [hc, hw]
      · simp only [hc, if_false, hw, if_true, windowCount, List.filter_filter]
        simp
      · simp only [hc, if_false, hw, if_true]
        exact List.filter_sublist _

/-! ### Claim C9 -/

/-- C9: any sequence of chat invocations leaves `apiRequestCount` and
`requestsInWindow` untouched (the chat path never calls
`trackApiRequest` or `canMakeApiRequest`), hence the usage-stat totals
are unchanged as well. -/
theorem chat_preserves_usage_counters (l : List ChatInp) (s : UsageState) :
    (chatIter l s).apiRequestCount = s.apiRequestCount ∧
    (chatIter l s).requestsInWindow = s.requestsInWindow ∧
    (∀ env now,
      (getApiUsageStats env now (chatIter l s)).totalRequests =
        (getApiUsageStats env now s).totalRequests ∧
      (getApiUsageStats env now (chatIter l s)).remainingRequests =
        (getApiUsageStats env now s).remainingRequests ∧
      (getApiUsageStats env now (chatIter l s)).requestsInLastMinute =
        (getApiUsageStats env now s).requestsInLastMinute) := by
  induction l generalizing s with
  | nil =>
    exact ⟨rfl, rfl, fun env now => ⟨rfl, rfl, rfl⟩⟩
  | cons i rest ih =>
    have hstep := chat_state_counters i.env i.now s i.q i.limit i.catalog
    have hrec := ih (getChatRecommendations i.env i.now s i.q i.limit i.catalog).st
    refine ⟨?_, ?_, ?_⟩
    · simpa [chatIter, hstep.1] using hrec.1
    · simpa [chatIter, hstep.2] using hrec.2.1
    · intro env now
      have h1 : (chatIter (i :: rest) s).apiRequestCount = s.apiRequestCount := by
        simpa [chatIter, hstep.1] using hrec.1
      have h2 : (chatIter (i :: rest) s).requestsInWindow = s.requestsInWindow := by
        simpa [chatIter, hstep.2] using hrec.2.1
      exact ⟨by simp [getApiUsageStats, h1], by simp [getApiUsageStats, h1],
        by simp [getApiUsageStats, windowCount, h2]⟩

/-! ### Claim C10 -/

/-- The `break`-style loop equals a first-match lookup. -/
theorem fallbackLoop_eq_find (p : String) (cs : List Course)
    (ks : List (String × List String)) :
    fallbackLoop p cs ks =
      match ks.find? (fun k => strIncludes p k.1) with
      | none => []
      | some k => careerRecs k.1 k.2 cs := by
  induction ks with
  | nil => rfl
  | cons k rest ih =>
    rcases k with ⟨career, skills⟩
    cases hc : strIncludes p career with
    | true => simp [fallbackLoop, hc, List.find?]
    | false => simp [fallbackLoop, hc, List.find?, ih]

/-- C10: `getFallbackRecommendations` yields a non-empty list only when
the lowercased prompt contains one of the five career phrases, and the
whole result is the contribution of the first matching phrase (the loop
breaks after it); with no matching phrase the result is empty. -/
theorem fallback_career_phrase_spec (userPrompt : String) (availableCourses : List Course) :
    (getFallbackRecommendations userPrompt availableCourses ≠ [] →
      ∃ k ∈ careerKeywords,
        strIncludes (String.mk (lowerL userPrompt.toList)) k.1 = true) ∧
    getFallbackRecommendations userPrompt availableCourses =
      (match careerKeywords.find?
          (fun k => strIncludes (String.mk (lowerL userPrompt.toList)) k.1) with
       | none => []
       | some k => careerRecs k.1 k.2 availableCourses) := by
  have heq : getFallbackRecommendations userPrompt availableCourses =
      (match careerKeywords.find?
          (fun k => strIncludes (String.mk (lowerL userPrompt.toList)) k.1) with
       | none => []
       | some k => careerRecs k.1 k.2 availableCourses) :=
    fallbackLoop_eq_find (String.mk (lowerL userPrompt.toList)) availableCourses careerKeywords
  refine ⟨?_, heq⟩
  intro hne
  rcases hf : careerKeywords.find?
      (fun k => strIncludes (String.mk (lowerL userPrompt.toList)) k.1) with _ | k
  · rw [heq, hf] at hne
    simp at hne
  · have hp := List.find?_some hf
    exact ⟨k, List.mem_of_find?_eq_some hf, by simpa using hp⟩

/-! ### Claim C1 -/

/-- C1 counterexample: with requested limit `0` the Mongo cursor is
unlimited, so the fallback returns more records than the limit — here
one course against a limit of zero. -/
theorem chat_limit_zero_unbounded :
    (resCourses (getChatRecommendations envNone 0 stateZero "python" 0 cat2).res).length =
      1 ∧
    ¬((resCourses (getChatRecommendations envNone 0 stateZero "python" 0 cat2).res).length
      ≤ 0) := by
  refine ⟨by decide, by decide⟩

/-- C1 amended: for every positive requested limit, whenever
`getChatRecommendations` resolves (rather than rejecting), the returned
list has length at most the limit and its recommendation scores are
non-increasing — on the AI path and on the search-fallback path. -/
theorem chat_results_bounded_monotone (env : Env) (now : Nat) (s : UsageState)
    (q : String) (n : Nat) (catalog : List Course) (hn : 0 < n) :
    exceptProp (getChatRecommendations env now s q n catalog).res
      (fun r => r.courses.length ≤ n ∧ nonIncr (scoresOf r.courses)) := by
  have hfb : ∀ (s' : UsageState) (nc : Nat),
      exceptProp (chatFallback q n catalog now s' env nc).res
        (fun r => r.courses.length ≤ n ∧ nonIncr (scoresOf r.courses)) := by
    intro s' nc
    rw [chatFallback_eq]
    by_cases hq : jsRegexOk q
    · simp only [hq, if_true, exceptProp]
      refine ⟨?_, nonIncr_searchBody q n catalog now s' env⟩
      rw [searchBody_courses_length]
      exact searchFound_length_le q n catalog hn
    · simp [hq, exceptProp]
  unfold getChatRecommendations
  cases hk : env.groqApiKey with
  | none =>
    simp only [useGroqFallback, hk]
    exact hfb s 0
  | some k =>
    cases hr : env.groqResult with
    | none =>
      simp only [useGroqFallback, hk, hr]
      exact hfb s 1
    | some content =>
      simp only [useGroqFallback, hk, hr]
      cases hp : parsePositions (String.mk (trimL content.toList))
          (min 20 (chatAvail catalog).length) n with
      | nil => exact hfb _ 1
      | cons idx rest =>
        simp only [exceptProp]
        constructor
        · have := parsePositions_length_le (String.mk (trimL content.toList))
            (min 20 (chatAvail catalog).length) n
          rw [hp] at this
          simpa [aiRecs_length] using this
        · exact nonIncr_aiRecs _ _ _ _

/-- C1 witness: limit 1 with no provider configured — the fallback list
is bounded by the limit with monotone scores. -/
theorem chat_results_bounded_monotone_witness :
    0 < 1 ∧
    exceptProp (getChatRecommendations envNone 0 stateZero "java" 1 cat2).res
      (fun r => r.courses.length ≤ 1 ∧ nonIncr (scoresOf r.courses)) :=
  ⟨by decide, chat_results_bounded_monotone envNone 0 stateZero "java" 1 cat2 (by decide)⟩

/-! ### Claim C3 -/

/-- C3 counterexample: on the query `"("` (an invalid regular
expression) with the Groq transport failing, the fallback construction
`new RegExp(query, 'i')` throws, the rethrow escapes the outer catch,
and `getChatRecommendations` rejects instead of resolving. -/
theorem chat_rejects_on_invalid_regex_query :
    (useGroqFallback (envGroq none) stateZero).1 = none ∧
    resOk (getChatRecommendations (envGroq none) 0 stateZero "(" 5 cat2).res = false := by
  refine ⟨rfl, by decide⟩

/-- C3 amended: for every query that compiles as a regular expression
(in the model: contains no regex metacharacter), `getChatRecommendations`
always resolves, and under an AI-path failure (no Groq key or Groq
transport failure) it resolves with exactly the keyword-search fallback
result. -/
theorem chat_failures_degrade_to_search (env : Env) (now : Nat) (s : UsageState)
    (q : String) (n : Nat) (catalog : List Course) (hq : jsRegexOk q = true) :
    resOk (getChatRecommendations env now s q n catalog).res = true ∧
    ((useGroqFallback env s).1 = none →
      (getChatRecommendations env now s q n catalog).res =
        Except.ok (searchBody q n catalog now s env)) := by
  unfold getChatRecommendations
  cases hk : env.groqApiKey with
  | none =>
    simp only [useGroqFallback, hk, chatFallback_eq]
    simp [hq, resOk]
  | some k =>
    cases hr : env.groqResult with
    | none =>
      simp only [useGroqFallback, hk, hr, chatFallback_eq]
      simp [hq, resOk]
    | some content =>
      simp only [useGroqFallback, hk, hr]
      constructor
      · cases hp : parsePositions (String.mk (trimL content.toList))
            (min 20 (chatAvail catalog).length) n with
        | nil =>
          simp only [hp, chatFallback_eq]
          simp [hq, resOk]
        | cons idx rest => simp [hp, resOk]
      · intro hnone
        simp [useGroqFallback, hk, hr] at hnone

/-- C3 witness: with no provider configured and a plain query, the
invocation resolves with the search-fallback result. -/
theorem chat_failures_degrade_to_search_witness :
    jsRegexOk "java" = true ∧
    resOk (getChatRecommendations envNone 0 stateZero "java" 5 cat2).res = true ∧
    (getChatRecommendations envNone 0 stateZero "java" 5 cat2).res =
      Except.ok (searchBody "java" 5 cat2 0 stateZero envNone) :=
  ⟨by decide,
    (chat_failures_degrade_to_search envNone 0 stateZero "java" 5 cat2 (by decide)).1,
    (chat_failures_degrade_to_search envNone 0 stateZero "java" 5 cat2 (by decide)).2 rfl⟩

/-! ### Claim C4 -/

/-- C4 counterexample: on text yielding no usable data under any parsing
step, the provider parser returns `success: true` with an empty
`recommendations` array (and the raw text attached) — an empty success,
not an explicit unparseable-failure signal. -/
theorem provider_parse_empty_success_on_unparseable :
    (parseProviderContent "groq" "I cannot help with that").success = true ∧
    isEmptyArr (parseProviderContent "groq" "I cannot help with that").recommendations =
      true ∧
    (parseProviderContent "groq" "I cannot help with that").textResponse =
      some "I cannot help with that" := by
  refine ⟨rfl, rfl, rfl⟩

/-- C4 amended: the provider-response parser always reports success;
when neither the strict `JSON.parse` nor the embedded-array extraction
yields data, it returns an empty `recommendations` array with the raw
text as `textResponse` rather than a failure signal. -/
theorem provider_parse_always_success (provider text : String) :
    (parseProviderContent provider text).success = true ∧
    (jsonParse text = none → extractJsonArray text = none →
      (parseProviderContent provider text).recommendations = Json.arr [] ∧
      (parseProviderContent provider text).textResponse = some text) := by
  constructor
  · cases hj : jsonParse text with
    | some v => simp [parseProviderContent, hj]
    | none =>
      cases he : extractJsonArray text with
      | none => simp [parseProviderContent, hj, he]
      | some sub =>
        cases hs : jsonParseL sub <;> simp [parseProviderContent, hj, he, hs]
  · intro hj he
    simp [parseProviderContent, hj, he]

/-- C4 witness: a concrete unparseable text hits the amended branch. -/
theorem provider_parse_always_success_witness :
    jsonParse "no structured output" = none ∧
    extractJsonArray "no structured output" = none ∧
    (parseProviderContent "openai" "no structured output").recommendations = Json.arr [] ∧
    (parseProviderContent "openai" "no structured output").textResponse =
      some "no structured output" :=
  ⟨rfl, rfl,
    ((provider_parse_always_success "openai" "no structured output").2 rfl rfl).1,
    ((provider_parse_always_success "openai" "no structured output").2 rfl rfl).2⟩

/-! ### Claim C2 -/

/-- C2 counterexample: in a state where the usage gate is closed (total
counter at the ceiling), a chat invocation still dispatches the Groq
network call and returns an AI-generated result — the chat path never
consults `canMakeApiRequest`. -/
theorem gate_false_still_calls_groq :
    (canMakeApiRequest 0 stateAtCap).1 = false ∧
    (getChatRecommendations (envGroq (some "1")) 0 stateAtCap "python" 5 cat2).netCalls =
      1 ∧
    resAiGenerated
      (getChatRecommendations (envGroq (some "1")) 0 stateAtCap "python" 5 cat2).res =
      true := by
  refine ⟨rfl, by decide, by decide⟩

/-- C2 amended: the gate is enforced only on the personalized path —
when an OpenAI key is configured and `canMakeApiRequest` is false,
`generateAIRecommendations` makes no network call and returns the basic
preference-scoring fallback; the chat path ignores the gate entirely and
dispatches exactly one Groq call whenever a Groq key is configured
(zero otherwise), regardless of the usage state. -/
theorem gate_and_network_calls :
    (∀ (env : Env) (now : Nat) (s : UsageState) (profile : UserProfile)
        (avail : List Course) (n : Nat),
      env.openaiApiKey.isSome = true → (canMakeApiRequest now s).1 = false →
        (generateAIRecommendations env now s profile avail n).netCalls = 0 ∧
        (generateAIRecommendations env now s profile avail n).recs =
          generateBasicRecommendations env profile avail n) ∧
    (∀ (env : Env) (now : Nat) (s : UsageState) (q : String) (n : Nat)
        (catalog : List Course),
      (getChatRecommendations env now s q n catalog).netCalls =
        if env.groqApiKey.isSome then 1 else 0) := by
  constructor
  · intro env now s profile avail n hkey hgate
    cases hk : env.openaiApiKey with
    | none => rw [hk] at hkey; simp at hkey
    | some k =>
      rcases hcm : canMakeApiRequest now s with ⟨b, s1⟩
      have hb : b = false := by rw [hcm] at hgate; exact hgate
      subst hb
      simp [generateAIRecommendations, hk, hcm]
  · intro env now s q n catalog
    unfold getChatRecommendations
    cases hk : env.groqApiKey with
    | none =>
      simp only [useGroqFallback, hk, chatFallback_eq]
      by_cases hq : jsRegexOk q <;> simp [hq, hk]
    | some k =>
      cases hr : env.groqResult with
      | none =>
        simp only [useGroqFallback, hk, hr, chatFallback_eq]
        by_cases hq : jsRegexOk q <;> simp [hq, hk]
      | some content =>
        simp only [useGroqFallback, hk, hr]
        cases hp : parsePositions (String.mk (trimL content.toList))
            (min 20 (chatAvail catalog).length) n with
        | nil =>
          simp only [hp, chatFallback_eq]
          by_cases hq : jsRegexOk q <;> simp [hq, hk]
        | cons idx rest => simp [hp, hk]

/-- C2 witness: OpenAI key configured, gate closed at the ceiling — the
personalized path makes no network call and returns the basic
fallback. -/
theorem gate_and_network_calls_witness :
    envOpenAI.openaiApiKey.isSome = true ∧
    (canMakeApiRequest 0 stateAtCap).1 = false ∧
    (generateAIRecommendations envOpenAI 0 stateAtCap profileEmpty cat2 5).netCalls = 0 ∧
    (generateAIRecommendations envOpenAI 0 stateAtCap profileEmpty cat2 5).recs =
      generateBasicRecommendations envOpenAI profileEmpty cat2 5 :=
  ⟨rfl, rfl,
    (gate_and_network_calls.1 envOpenAI 0 stateAtCap profileEmpty cat2 5 rfl rfl).1,
    (gate_and_network_calls.1 envOpenAI 0 stateAtCap profileEmpty cat2 5 rfl rfl).2⟩

/-! ### Claim C5 -/

/-- C5: the response "2,1,3" over the 3-item excerpt resolves the
courses at excerpt positions 2, 1, 3 in that order with scores 1, 2/3,
1/3; in general, every AI-generated batch carries scores
`(L - rank) / L` for `L` resolved hints, strictly decreasing along the
list. -/
theorem matcher_rank_ladder_scores :
    ((resCourses (getChatRecommendations (envGroq (some "2,1,3")) 0 stateZero
        "recommend courses for me" 5 cat3).res).map
        (fun r => (r.course.id, r.recommendationScore)) =
      [("cb", 1), ("ca", 2 / 3), ("cc", 1 / 3)]) ∧
    (∀ (env : Env) (now : Nat) (s : UsageState) (q : String) (n : Nat)
        (catalog : List Course),
      exceptProp (getChatRecommendations env now s q n catalog).res (fun r =>
        r.aiGenerated = true →
          (∀ i (h : i < r.courses.length),
            (r.courses.get ⟨i, h⟩).recommendationScore =
              ((r.courses.length : Rat) - (i : Nat)) / (r.courses.length : Rat)) ∧
          (∀ i (h : i + 1 < r.courses.length),
            (r.courses.get ⟨i + 1, h⟩).recommendationScore <
              (r.courses.get ⟨i, Nat.lt_of_succ_lt h⟩).recommendationScore))) := by
  constructor
  · rw [show resCourses (getChatRecommendations (envGroq (some "2,1,3")) 0 stateZero
        "recommend courses for me" 5 cat3).res =
        aiRecs "recommend courses for me" (chatAvail cat3) (some "groq") [1, 0, 2] from rfl]
    simp [aiRecs, idxFrom, chatAvail, cat3, jsLimit, courseA, courseB, courseC]
    norm_num
  · intro env now s q n catalog
    have hfb : ∀ (s' : UsageState) (nc : Nat),
        exceptProp (chatFallback q n catalog now s' env nc).res (fun r =>
          r.aiGenerated = true →
            (∀ i (h : i < r.courses.length),
              (r.courses.get ⟨i, h⟩).recommendationScore =
                ((r.courses.length : Rat) - (i : Nat)) / (r.courses.length : Rat)) ∧
            (∀ i (h : i + 1 < r.courses.length),
              (r.courses.get ⟨i + 1, h⟩).recommendationScore <
                (r.courses.get ⟨i, Nat.lt_of_succ_lt h⟩).recommendationScore)) := by
      intro s' nc
      rw [chatFallback_eq]
      by_cases hq : jsRegexOk q
      · simp only [hq, if_true, exceptProp]
        intro hai
        simp [searchBody] at hai
      · simp [hq, exceptProp]
    unfold getChatRecommendations
    cases hk : env.groqApiKey with
    | none =>
      simp only [useGroqFallback, hk]
      exact hfb s 0
    | some k =>
      cases hr : env.groqResult with
      | none =>
        simp only [useGroqFallback, hk, hr]
        exact hfb s 1
      | some content =>
        simp only [useGroqFallback, hk, hr]
        cases hp : parsePositions (String.mk (trimL content.toList))
            (min 20 (chatAvail catalog).length) n with
        | nil => exact hfb _ 1
        | cons idx rest =>
          simp only [exceptProp]
          intro _
          constructor
          · intro i h
            have h2 : i < (idx :: rest).length := by simpa [aiRecs_length] using h
            rw [aiRecs_score_get _ _ _ _ i h h2]
            simp [aiRecs_length]
          · intro i h
            have h2 : i + 1 < (idx :: rest).length := by simpa [aiRecs_length] using h
            rw [aiRecs_score_get _ _ _ _ (i + 1) h h2,
              aiRecs_score_get _ _ _ _ i (Nat.lt_of_succ_lt h) (Nat.lt_of_succ_lt h2)]
            exact ladder_strict_anti (idx :: rest).length (by simp) i

/-- C5 witness: the "2,1,3" run is AI-generated, and the general ladder
property holds on it. -/
theorem matcher_rank_ladder_scores_witness :
    resAiGenerated (getChatRecommendations (envGroq (some "2,1,3")) 0 stateZero
      "recommend courses for me" 5 cat3).res = true ∧
    exceptProp (getChatRecommendations (envGroq (some "2,1,3")) 0 stateZero
      "recommend courses for me" 5 cat3).res (fun r =>
        r.aiGenerated = true →
          (∀ i (h : i < r.courses.length),
            (r.courses.get ⟨i, h⟩).recommendationScore =
              ((r.courses.length : Rat) - (i : Nat)) / (r.courses.length : Rat)) ∧
          (∀ i (h : i + 1 < r.courses.length),
            (r.courses.get ⟨i + 1, h⟩).recommendationScore <
              (r.courses.get ⟨i, Nat.lt_of_succ_lt h⟩).recommendationScore)) :=
  ⟨by decide,
    matcher_rank_ladder_scores.2 (envGroq (some "2,1,3")) 0 stateZero
      "recommend courses for me" 5 cat3⟩

/-! ### Claim C6 -/

/-- C6 counterexample: duplicate positions are NOT de-duplicated — the
response "2,2,1" over a 3-item excerpt resolves position 2 twice, and
the duplicate course reaches the final recommendation list. -/
theorem positions_duplicates_kept :
    parsePositions "2,2,1" 3 5 = [1, 1, 0] ∧
    (resCourses (getChatRecommendations (envGroq (some "2,2,1")) 0 stateZero
        "beginner courses" 5 cat3).res).map (fun r => r.course.id) =
      ["cb", "cb", "ca"] := by
  refine ⟨by decide, by decide⟩

/-- C6 amended: out-of-range positions (zero, no digits, or beyond the
shown excerpt) are discarded and the list is truncated to the requested
limit; duplicates, however, are kept in order of appearance. -/
theorem positions_bounded_truncated (content : String) (bound n : Nat) :
    (parsePositions content bound n).length ≤ n ∧
    ∀ i ∈ parsePositions content bound n, i < bound :=
  ⟨parsePositions_length_le content bound n, parsePositions_mem_lt content bound n⟩

/-- C6 witness: "2,9,1" over a 3-item excerpt with limit 2 — the
out-of-range 9 is dropped, the list is cut to 2 entries, every kept
position is inside the excerpt. -/
theorem positions_bounded_truncated_witness :
    (parsePositions "2,9,1" 3 2).length ≤ 2 ∧
    1 ∈ parsePositions "2,9,1" 3 2 ∧ 1 < 3 :=
  ⟨(positions_bounded_truncated "2,9,1" 3 2).1, by decide,
    (positions_bounded_truncated "2,9,1" 3 2).2 1 (by decide)⟩

/-! ### Claim C7 -/

/-- Membership in the fallback search result implies the published
status and the whole-query match. -/
theorem searchFound_mem (q : String) (n : Nat) (catalog : List Course) {c : Course}
    (h : c ∈ searchFound q n catalog) :
    c.status = "published" ∧ queryMatches q c = true := by
  unfold searchFound jsLimit at h
  have h1 : c ∈ sortByB courseBefore
      (catalog.filter (fun c => c.status = "published" && queryMatches q c)) := by
    by_cases hn : n = 0
    · simpa [hn] using h
    · exact List.mem_of_mem_take (by simpa [hn] using h)
  have h2 := mem_sortByB h1
  have h3 := (List.mem_filter.mp h2).2
  simpa using h3

/-- C7 counterexample: the fallback matches the WHOLE query as one
substring, not its tokens — for the query "python data" the course
"Data Visualization with Python" (tags include "Python") is not matched
at all, so it cannot be ranked above the unrelated course; the result is
empty. -/
theorem search_fallback_whole_query_no_match :
    resOk (getChatRecommendations envNone 0 stateZero "python data" 5 cat2).res = true ∧
    (resCourses (getChatRecommendations envNone 0 stateZero "python data" 5 cat2).res).map
        (fun r => r.course.id) = [] := by
  refine ⟨by decide, by decide⟩

/-- C7 amended: the fallback returns only published courses whose
title, description, a tag, or category contains the whole query as a
case-insensitive substring, ordered by rating then enrollment count
descending (token counts are only the `relevanceScore` annotation and do
not affect the order); for the single-token query "python", the Python
course is returned and the unrelated course is not. -/
theorem search_fallback_matching_and_order :
    (∀ (q : String) (n : Nat) (catalog : List Course) (now : Nat) (s : UsageState)
        (env : Env),
      (∀ rec ∈ (searchBody q n catalog now s env).courses,
        rec.course.status = "published" ∧ queryMatches q rec.course = true) ∧
      List.Chain' (fun a b => courseBefore b.course a.course = false)
        (searchBody q n catalog now s env).courses) ∧
    ((resCourses (getChatRecommendations envNone 0 stateZero "python" 5 cat2).res).map
        (fun r => r.course.id) = ["dataviz"]) := by
  constructor
  · intro q n catalog now s env
    constructor
    · intro rec hrec
      have hrec' : rec ∈ (idxFrom 0 (searchFound q n catalog)).map (fun p =>
          ({ course := p.2
             recommendationScore := ((n : Rat) - (p.1 : Rat)) / (n : Rat)
             recommendationReason := "Found based on search for: \"" ++ q ++ "\""
             recommendationService := "db-search"
             relevanceScore :=
               some (calculateRelevanceScore p.2 (searchTerms q)) } : RecRecord)) := by
        simpa [searchBody] using hrec
      rcases mem_map_idxFrom hrec' with ⟨p, hp, rfl⟩
      exact searchFound_mem q n catalog hp
    · have hbase : List.Chain' (fun a b : Course => courseBefore b a = false)
          (searchFound q n catalog) :=
        chain'_jsLimit (sorted_sortByB courseBefore_asym _) n
      have hidx := chain'_idxFrom hbase 0
      simp only [searchBody]
      rw [List.chain'_map]
      exact hidx
  · decide

/-- C7 witness: the amended matching/ordering property at the concrete
"python" instance, where the Python course does match. -/
theorem search_fallback_matching_and_order_witness :
    queryMatches "python" dataVizCourse = true ∧
    ((∀ rec ∈ (searchBody "python" 5 cat2 0 stateZero envNone).courses,
        rec.course.status = "published" ∧ queryMatches "python" rec.course = true) ∧
      List.Chain' (fun a b => courseBefore b.course a.course = false)
        (searchBody "python" 5 cat2 0 stateZero envNone).courses) :=
  ⟨by decide, search_fallback_matching_and_order.1 "python" 5 cat2 0 stateZero envNone⟩

/-- C10 witness: the prompt "I want to become a Data Scientist" matches
the career phrase "data scientist", and the result is exactly that
career's contribution — here the Python course of the catalog. -/
theorem fallback_career_phrase_spec_witness :
    getFallbackRecommendations "I want to become a Data Scientist" cat2 ≠ [] ∧
    (∃ k ∈ careerKeywords,
      strIncludes (String.mk (lowerL ("I want to become a Data Scientist").toList)) k.1 =
        true) ∧
    getFallbackRecommendations "I want to become a Data Scientist" cat2 =
      (match careerKeywords.find?
          (fun k => strIncludes
            (String.mk (lowerL ("I want to become a Data Scientist").toList)) k.1) with
       | none => []
       | some k => careerRecs k.1 k.2 cat2) := by
  refine ⟨by decide, ?_, (fallback_career_phrase_spec "I want to become a Data Scientist" cat2).2⟩
  exact (fallback_career_phrase_spec "I want to become a Data Scientist" cat2).1 (by decide)

end OLP
